import Mathlib

/-!
Verification development for the Substrate contracts module
(`src/paint/contracts/src/lib.rs`).

This file shallowly embeds the data model and the operations of the contracts
module and proves the specification claims about them.  Machine integers are
modelled as `Nat` with explicit `% 2^32` at the one place the source performs
`u32` arithmetic that may wrap (`restore_to`'s `storage_size` update).  The
cryptographic primitives (`T::Hashing::hash`, `blake2_256`, the child trie
root, and SCALE encoding of a byte vector) are opaque to every claim, so they
are passed around as explicit function parameters in a `HashCfg`.
-/

namespace SubstrateContracts

/-- Octet strings: `Vec<u8>` and friends. -/
abbrev Bytes := List Nat

/-- Account identifiers (`T::AccountId`), opaque in the source. -/
abbrev AccountId := Nat

abbrev Balance := Nat

abbrev BlockNumber := Nat

/-- Gas, a `u64` fuel amount. -/
abbrev Gas := Nat

/-- `TrieId`: byte string naming a contract's child trie (`type TrieId = Vec<u8>`). -/
abbrev TrieId := Bytes

/-- A raw 32-byte storage key (`exec::StorageKey`), modelled as a byte string. -/
abbrev StorageKey := Bytes

/-- The hashing environment of the runtime: `T::Hashing::hash`, `blake2_256`,
the child-trie root computation (`runtime_io::storage::child_root`) and SCALE
encoding of a byte string (`using_encoded` of a `Vec<u8>`).  All of them are
opaque collision-resistant primitives supplied by the host; no claim depends on
their internal structure, so they are parameters of the model. -/
structure HashCfg where
  hashFn : Bytes → Bytes
  blake2 : Bytes → Bytes
  childRoot : (StorageKey → Option Bytes) → Bytes
  encodeBytes : Bytes → Bytes

/-- `RawAliveContractInfo`: the `Alive` payload of `ContractInfo`
(lib.rs lines 219-232). -/
structure RawAliveContractInfo where
  trie_id : TrieId
  storage_size : Nat
  code_hash : Bytes
  rent_allowance : Balance
  deduct_block : BlockNumber
  last_write : Option BlockNumber
deriving DecidableEq

/-- `ContractInfo<T>`: sum of an alive contract and a tombstone.  A
`RawTombstoneContractInfo` is just its hash field (the `PhantomData` carries
no data), so the `Tombstone` constructor holds the hash directly. -/
inductive ContractInfo where
  | Alive (info : RawAliveContractInfo)
  | Tombstone (hash : Bytes)
deriving DecidableEq

/-- `ContractInfo::get_alive` (lib.rs lines 163-169). -/
def ContractInfo.get_alive : ContractInfo → Option RawAliveContractInfo
  | .Alive alive => some alive
  | _ => none

/-- `ContractInfo::get_tombstone` (lib.rs lines 188-194). -/
def ContractInfo.get_tombstone : ContractInfo → Option Bytes
  | .Tombstone tombstone => some tombstone
  | _ => none

/-- `RawTombstoneContractInfo::new(storage_root, code_hash)` (lib.rs lines
247-252): hash the SCALE encoding of the storage root followed by the raw
code hash bytes. -/
def tombstone_new (cfg : HashCfg) (storage_root : Bytes) (code_hash : Bytes) : Bytes :=
  cfg.hashFn (cfg.encodeBytes storage_root ++ code_hash)

/-- The portion of chain state the claims touch: the `ContractInfoOf` map, the
child-trie key/value stores (indexed by trie id and by the *hashed* key, as
`child::get_raw` and `child::put_raw` are always fed `blake2_256(key)`), free
balances, and the current block number. -/
structure ChainState where
  contractInfoOf : AccountId → Option ContractInfo
  childStorage : TrieId → StorageKey → Option Bytes
  freeBalance : AccountId → Balance
  blockNumber : BlockNumber

/-- `child::kill(trie_id, key)`: remove one entry of a child trie. -/
def childKill (c : TrieId → StorageKey → Option Bytes) (t : TrieId) (k : StorageKey) :
    TrieId → StorageKey → Option Bytes :=
  fun t1 k1 => if t1 = t ∧ k1 = k then none else c t1 k1

/-- `child::put_raw(trie_id, key, value)`: write one entry of a child trie. -/
def childPutRaw (c : TrieId → StorageKey → Option Bytes) (t : TrieId) (k : StorageKey)
    (v : Bytes) : TrieId → StorageKey → Option Bytes :=
  fun t1 k1 => if t1 = t ∧ k1 = k then some v else c t1 k1

/-- `child::kill_storage(trie_id)`: remove a whole child trie. -/
def childKillStorage (c : TrieId → StorageKey → Option Bytes) (t : TrieId) :
    TrieId → StorageKey → Option Bytes :=
  fun t1 k1 => if t1 = t then none else c t1 k1

/-- The `key_values_taken` loop of `restore_to` (lib.rs lines 788-795): walk
the delta keys in order; for each key present in the donor's child trie, kill
the entry and collect the pair.  The kills are threaded through, so a
duplicated delta key is collected only once. -/
def takeDelta (cfg : HashCfg) (trie : TrieId) :
    (TrieId → StorageKey → Option Bytes) → List StorageKey →
      (TrieId → StorageKey → Option Bytes) × List (StorageKey × Bytes)
  | c, [] => (c, [])
  | c, key :: ks =>
    match c trie (cfg.blake2 key) with
    | some value =>
      let r := takeDelta cfg trie (childKill c trie (cfg.blake2 key)) ks
      (r.1, (key, value) :: r.2)
    | none => takeDelta cfg trie c ks

/-- The write-back loop of the tombstone-mismatch branch (lib.rs lines
805-807): re-insert every taken pair, in order. -/
def putBackAll (cfg : HashCfg) (trie : TrieId) :
    (TrieId → StorageKey → Option Bytes) → List (StorageKey × Bytes) →
      TrieId → StorageKey → Option Bytes
  | c, [] => c
  | c, (key, value) :: rest =>
    putBackAll cfg trie (childPutRaw c trie (cfg.blake2 key) value) rest

/-- Wrapping `u32` subtraction: the source updates `storage_size` with
`-=` on `u32` values, which is two's-complement wrapping in release builds. -/
def u32Sub (a b : Nat) : Nat := (a + (2 ^ 32 - b % 2 ^ 32)) % 2 ^ 32

/-- Errors of `Module::restore_to`, one constructor per `&'static str` error
string of the source (lib.rs lines 770, 775, 780, 809). -/
inductive RestoreError where
  | RestoreFromNonAlive
  | OriginWrittenThisBlock
  | RestoreToNonTombstone
  | TombstoneMismatch
deriving DecidableEq

/-- `Module::restore_to` (lib.rs lines 761-831), as a state transformer.
Returns the post state and the dispatch result. -/
def restore_to (cfg : HashCfg) (st : ChainState) (origin dest : AccountId)
    (code_hash : Bytes) (rent_allowance : Balance) (delta : List StorageKey) :
    ChainState × Except RestoreError Unit :=
  match (st.contractInfoOf origin).bind ContractInfo.get_alive with
  | none => (st, .error .RestoreFromNonAlive)
  | some origin_contract =>
    let current_block := st.blockNumber
    if origin_contract.last_write = some current_block then
      (st, .error .OriginWrittenThisBlock)
    else
      match (st.contractInfoOf dest).bind ContractInfo.get_tombstone with
      | none => (st, .error .RestoreToNonTombstone)
      | some dest_tombstone =>
        let last_write := if delta.isEmpty then origin_contract.last_write
          else some current_block
        let taken := takeDelta cfg origin_contract.trie_id st.childStorage delta
        let tombstone :=
          tombstone_new cfg (cfg.childRoot (taken.1 origin_contract.trie_id)) code_hash
        if tombstone ≠ dest_tombstone then
          ({ st with childStorage := putBackAll cfg origin_contract.trie_id taken.1 taken.2 },
           .error .TombstoneMismatch)
        else
          let new_size := u32Sub origin_contract.storage_size
            ((taken.2.map fun kv => kv.2.length).sum)
          let origin_free := st.freeBalance origin
          ({ st with
              contractInfoOf := fun a =>
                if a = dest then
                  some (ContractInfo.Alive {
                    trie_id := origin_contract.trie_id,
                    storage_size := new_size,
                    code_hash := code_hash,
                    rent_allowance := rent_allowance,
                    deduct_block := current_block,
                    last_write := last_write })
                else if a = origin then none
                else st.contractInfoOf a,
              childStorage := taken.1,
              freeBalance := fun a =>
                if a = dest then (if a = origin then 0 else st.freeBalance a) + origin_free
                else if a = origin then 0
                else st.freeBalance a },
           .ok ())

/-- `checked_div` on an unsigned integer balance type: `None` exactly on a
zero divisor, otherwise the floored quotient. -/
def checked_div (a b : Nat) : Option Nat := if b = 0 then none else some (a / b)

/-- The gas-price computation of `CheckBlockGasLimit::perform_pre_dispatch_checks`
(lib.rs lines 1050-1056): `fee = WeightToFee(gas_weight_limit)` and
`gas_price = fee.checked_div(gas_weight_limit).unwrap_or(1)`, the value then
stored into the transient `GasPrice`. -/
def perform_pre_dispatch_gas_price (weight_to_fee : Nat → Nat)
    (gas_weight_limit : Nat) : Nat :=
  let fee := weight_to_fee gas_weight_limit
  (checked_div fee gas_weight_limit).getD 1

/-- `SimpleAddressDeterminator::contract_address_for` (lib.rs lines 438-447):
hash the input data, concatenate code hash, data hash and origin bytes into a
buffer, and hash the buffer. -/
def contract_address_for (cfg : HashCfg) (code_hash : Bytes) (data : Bytes)
    (origin : Bytes) : Bytes :=
  let data_hash := cfg.hashFn data
  let buf : Bytes := []
  let buf := buf ++ code_hash
  let buf := buf ++ data_hash
  let buf := buf ++ origin
  cfg.hashFn buf

/-- `Schedule` (lib.rs lines 924-979): versioned cost and limit table. -/
structure Schedule where
  version : Nat
  grow_mem_cost : Gas
  regular_op_cost : Gas
  return_data_per_byte_cost : Gas
  event_data_per_byte_cost : Gas
  event_per_topic_cost : Gas
  event_base_cost : Gas
  call_base_cost : Gas
  instantiate_base_cost : Gas
  sandbox_data_read_cost : Gas
  sandbox_data_write_cost : Gas
  max_event_topics : Nat
  max_stack_height : Nat
  max_memory_pages : Nat
  max_table_size : Nat
  enable_println : Bool
  max_subject_len : Nat
deriving DecidableEq

/-- `Schedule::default()` (lib.rs lines 981-1003). -/
def Schedule.default : Schedule where
  version := 0
  grow_mem_cost := 1
  regular_op_cost := 1
  return_data_per_byte_cost := 1
  event_data_per_byte_cost := 1
  event_per_topic_cost := 1
  event_base_cost := 1
  call_base_cost := 135
  instantiate_base_cost := 175
  sandbox_data_read_cost := 1
  sandbox_data_write_cost := 1
  max_event_topics := 4
  max_stack_height := 64 * 1024
  max_memory_pages := 16
  max_table_size := 16 * 1024
  enable_println := false
  max_subject_len := 32

/-- The module's events (`decl_event!`, lib.rs lines 834-860). -/
inductive ContractEvent where
  | Transfer (source : AccountId) (dest : AccountId) (value : Balance)
  | Instantiated (deployer : AccountId) (contract : AccountId)
  | CodeStored (code_hash : Bytes)
  | ScheduleUpdated (version : Nat)
  | Dispatched (account : AccountId) (success : Bool)
  | Contract (account : AccountId) (data : Bytes)
deriving DecidableEq

/-- Dispatch origins relevant to the module's entry points. -/
inductive DispatchOrigin where
  | Root
  | Signed (who : AccountId)
  | Inherent
deriving DecidableEq

/-- Errors of `update_schedule` (`ensure_root` failure, and the stale-version
error string of lib.rs line 534). -/
inductive UpdateScheduleError where
  | BadOrigin
  | StaleOrEqualVersion
deriving DecidableEq

/-- The state touched by `update_schedule`: the stored `CurrentSchedule` and
the event log of the surrounding block. -/
structure ScheduleState where
  currentSchedule : Schedule
  events : List ContractEvent
deriving DecidableEq

/-- `Module::update_schedule` (lib.rs lines 531-541): root-only; requires the
new schedule's version to be strictly greater than the stored one; on success
deposits `ScheduleUpdated(new_version)` and stores the schedule. -/
def update_schedule (origin : DispatchOrigin) (st : ScheduleState)
    (schedule : Schedule) : ScheduleState × Except UpdateScheduleError Unit :=
  match origin with
  | .Root =>
    if st.currentSchedule.version ≥ schedule.version then
      (st, .error .StaleOrEqualVersion)
    else
      ({ currentSchedule := schedule,
         events := st.events ++ [ContractEvent.ScheduleUpdated schedule.version] },
       .ok ())
  | _ => (st, .error .BadOrigin)

/-- `exec::StatusCode`: a `u8` status returned by a contract execution. -/
abbrev StatusCode := Nat

/-- `exec::ExecReturnValue`: output buffer plus status flag. -/
structure ExecReturnValue where
  status : StatusCode
  data : Bytes
deriving DecidableEq

/-- Modelled from the spec: `ExecReturnValue::is_success` lives in exec.rs,
which is not under src/.  The spec says a contract exits "with an opaque
output buffer and a status flag distinguishing `Success` from
`ContractReverted`"; status 0 is success and any other status is a revert. -/
def ExecReturnValue.is_success (v : ExecReturnValue) : Bool := v.status = 0

/-- `exec::ExecError`: an error reason together with the input buffer handed
back to the caller. -/
structure ExecError where
  reason : String
  buffer : Bytes
deriving DecidableEq

/-- `exec::ExecResult`. -/
abbrev ExecResult := Except ExecError ExecReturnValue

/-- The success test of `execute_wasm` (lib.rs line 715):
`result.as_ref().map(|output| output.is_success()).unwrap_or(false)`. -/
def execResultIsSuccess : ExecResult → Bool
  | .ok output => output.is_success
  | .error _ => false

/-- `exec::DeferredAction`: the three deferred-action variants, with exactly
the fields the replay loop of `execute_wasm` destructures (lib.rs lines
731-754).  The runtime call payload is opaque here. -/
inductive DeferredAction where
  | DepositEvent (topics : List Bytes) (event : ContractEvent)
  | DispatchRuntimeCall (origin : AccountId) (call : Nat)
  | RestoreTo (donor : AccountId) (dest : AccountId) (code_hash : Bytes)
      (rent_allowance : Balance) (delta : List StorageKey)
deriving DecidableEq

/-- Modelled from the spec: the nested-frame deferral protocol of exec.rs,
which is not under src/.  "Deferred actions are queued inside a frame and only
materialize if the top-level call succeeds"; on `Success` the frame's deferred
log is merged into the parent in execution order, and on revert or trap it is
dropped.  Hence the root context's deferred log after the root call holds the
produced actions, in order, exactly when the root result is a successful
output, and is empty otherwise. -/
def rootDeferredLog (result : ExecResult) (produced : List DeferredAction) :
    List DeferredAction :=
  if execResultIsSuccess result then produced else []

/-- An overlay change set handed to `DirectAccountDb::commit`, opaque here. -/
structure ChangeSet where
  id : Nat
deriving DecidableEq

/-- The observable outcome of one `execute_wasm` run: the change sets
committed to the backing `DirectAccountDb`, the deferred actions replayed
after the commit (in replay order), and the returned result. -/
structure ExecuteWasmOutcome where
  commits : List ChangeSet
  replayed : List DeferredAction
  result : ExecResult

/-- `Module::execute_wasm` (lib.rs lines 693-759), abstracted over the root
call's behaviour: `result` is what `func(&mut ctx, &mut gas_meter)` returned,
`produced` are the deferred actions the root call frame produced (they reach
`ctx.deferred` per `rootDeferredLog`), and `changeSet` is
`ctx.overlay.into_change_set()`.  The source commits the change set when the
result is a successful output (lines 715-718) and then iterates
`ctx.deferred` in order (lines 729-756). -/
def execute_wasm (result : ExecResult) (produced : List DeferredAction)
    (changeSet : ChangeSet) : ExecuteWasmOutcome :=
  let ctxDeferred := rootDeferredLog result produced
  { commits := if execResultIsSuccess result then [changeSet] else [],
    replayed := ctxDeferred,
    result := result }

/-- `GetStorageError` (lib.rs lines 647-652). -/
inductive GetStorageError where
  | ContractDoesntExist
  | IsTombstone
deriving DecidableEq

/-- Modelled from the spec: `DirectAccountDb::get_storage` lives in
account_db.rs, which is not under src/.  Per the spec's account-overlay and
child-storage interfaces, a committed read of contract storage looks the key
up in the contract's child trie, the key being "hashed with blake2-256 before
use"; an account without a trie id has no contract storage. -/
def direct_account_db_get_storage (cfg : HashCfg) (st : ChainState)
    (trie_id : Option TrieId) (key : StorageKey) : Option Bytes :=
  match trie_id with
  | some t => st.childStorage t (cfg.blake2 key)
  | none => none

/-- `Module::get_storage` (lib.rs lines 673-689): a read-only query.  It
returns an error for a missing or tombstoned contract, and otherwise the raw
committed child-trie value under the (hashed) key. -/
def get_storage (cfg : HashCfg) (st : ChainState) (address : AccountId)
    (key : StorageKey) : Except GetStorageError (Option Bytes) :=
  match st.contractInfoOf address with
  | none => .error .ContractDoesntExist
  | some ci =>
    match ci.get_alive with
    | none => .error .IsTombstone
    | some contract_info =>
      .ok (direct_account_db_get_storage cfg st (some contract_info.trie_id) key)

/-- `Module::on_free_balance_zero` (lib.rs lines 885-891):
`ContractInfoOf::take(who)` removes the entry whatever it is; only when the
removed entry was `Alive` is the child trie killed. -/
def on_free_balance_zero (st : ChainState) (who : AccountId) : ChainState :=
  let taken := st.contractInfoOf who
  let st1 : ChainState :=
    { st with contractInfoOf := fun a => if a = who then none else st.contractInfoOf a }
  match taken with
  | some (.Alive info) =>
    { st1 with childStorage := childKillStorage st1.childStorage info.trie_id }
  | _ => st1

/-! Concrete fixtures used by the witness theorems. -/

/-- A concrete hashing environment for witnesses: hashing and encoding are the
identity on byte strings and the child root is constant.  No claim relies on
properties of the hash primitives, so any instantiation is admissible. -/
def cfg0 : HashCfg where
  hashFn := id
  blake2 := id
  childRoot := fun _ => []
  encodeBytes := id

/-- A concrete alive donor contract. -/
def aliveA : RawAliveContractInfo where
  trie_id := [1]
  storage_size := 10
  code_hash := [7]
  rent_allowance := 3
  deduct_block := 2
  last_write := none

/-- A concrete alive contract whose child storage was written in the current
block of `stRestore`. -/
def aliveB : RawAliveContractInfo where
  trie_id := [3]
  storage_size := 10
  code_hash := [7]
  rent_allowance := 3
  deduct_block := 2
  last_write := some 5

/-- A concrete chain state: account 0 is the alive donor `aliveA`, account 1
holds the tombstone `[7]`, account 2 is `aliveB` (written this block). -/
def stRestore : ChainState where
  contractInfoOf := fun a =>
    if a = 0 then some (ContractInfo.Alive aliveA)
    else if a = 1 then some (ContractInfo.Tombstone [7])
    else if a = 2 then some (ContractInfo.Alive aliveB)
    else none
  childStorage := fun t k => if t = [1] ∧ k = [2] then some [5, 5] else none
  freeBalance := fun a => if a = 0 then 20 else 0
  blockNumber := 5

/-! Helper lemmas about the take / put-back loops of `restore_to`. -/

theorem childPutRaw_childKill_cancel (c : TrieId → StorageKey → Option Bytes)
    (t : TrieId) (k : StorageKey) (v : Bytes) (h : c t k = some v) :
    childPutRaw (childKill c t k) t k v = c := by
  funext t1 k1
  by_cases h1 : t1 = t ∧ k1 = k
  · simp only [childPutRaw, childKill, if_pos h1]
    rw [h1.1, h1.2]
    exact h.symm
  · simp [childPutRaw, childKill, h1]

theorem childPutRaw_comm (c : TrieId → StorageKey → Option Bytes) (t : TrieId)
    (k1 k2 : StorageKey) (v1 v2 : Bytes) (h : k1 ≠ k2) :
    childPutRaw (childPutRaw c t k1 v1) t k2 v2 =
      childPutRaw (childPutRaw c t k2 v2) t k1 v1 := by
  funext t3 k3
  simp only [childPutRaw]
  by_cases ht : t3 = t <;> by_cases hk1 : k3 = k1 <;> by_cases hk2 : k3 = k2 <;>
    simp_all

theorem takeDelta_avoids_dead_slot (cfg : HashCfg) (trie : TrieId)
    (ks : List StorageKey) (c : TrieId → StorageKey → Option Bytes)
    (s : StorageKey) (h : c trie s = none) :
    ∀ p ∈ (takeDelta cfg trie c ks).2, cfg.blake2 p.1 ≠ s := by
  induction ks generalizing c with
  | nil => simp [takeDelta]
  | cons key ks ih =>
    cases hk : c trie (cfg.blake2 key) with
    | none =>
      simp only [takeDelta, hk]
      exact ih c h
    | some value =>
      simp only [takeDelta, hk, List.mem_cons]
      rintro p (rfl | hp)
      · intro hbk
        rw [hbk, h] at hk
        exact Option.noConfusion hk
      · have hkill : (childKill c trie (cfg.blake2 key)) trie s = none := by
          by_cases hc : s = cfg.blake2 key <;> simp [childKill, hc, h]
        exact ih (childKill c trie (cfg.blake2 key)) hkill p hp

theorem putBackAll_childPutRaw_comm (cfg : HashCfg) (trie : TrieId)
    (taken : List (StorageKey × Bytes)) (c : TrieId → StorageKey → Option Bytes)
    (s : StorageKey) (v : Bytes) (h : ∀ p ∈ taken, cfg.blake2 p.1 ≠ s) :
    putBackAll cfg trie (childPutRaw c trie s v) taken =
      childPutRaw (putBackAll cfg trie c taken) trie s v := by
  induction taken generalizing c with
  | nil => rfl
  | cons p rest ih =>
    obtain ⟨k, w⟩ := p
    have hk : cfg.blake2 k ≠ s := h (k, w) (List.mem_cons_self _ _)
    simp only [putBackAll]
    rw [childPutRaw_comm c trie s (cfg.blake2 k) v w (fun hh => hk hh.symm)]
    exact ih (childPutRaw c trie (cfg.blake2 k) w)
      (fun q hq => h q (List.mem_cons_of_mem _ hq))

theorem takeDelta_putBack_roundtrip (cfg : HashCfg) (trie : TrieId)
    (ks : List StorageKey) (c : TrieId → StorageKey → Option Bytes) :
    putBackAll cfg trie (takeDelta cfg trie c ks).1 (takeDelta cfg trie c ks).2 = c := by
  induction ks generalizing c with
  | nil => rfl
  | cons key ks ih =>
    cases hk : c trie (cfg.blake2 key) with
    | none =>
      simp only [takeDelta, hk]
      exact ih c
    | some value =>
      simp only [takeDelta, hk, putBackAll]
      have hkill : (childKill c trie (cfg.blake2 key)) trie (cfg.blake2 key) = none := by
        simp [childKill]
      rw [putBackAll_childPutRaw_comm cfg trie _ _ _ _
        (takeDelta_avoids_dead_slot cfg trie ks _ _ hkill)]
      rw [ih (childKill c trie (cfg.blake2 key))]
      exact childPutRaw_childKill_cancel c trie (cfg.blake2 key) value hk

theorem u32Sub_eq_sub (a b : Nat) (hb : b ≤ a) (ha : a < 2 ^ 32) :
    u32Sub a b = a - b := by
  unfold u32Sub
  rw [Nat.mod_eq_of_lt (lt_of_le_of_lt hb ha)]
  rw [show a + (2 ^ 32 - b) = (a - b) + 2 ^ 32 by omega, Nat.add_mod_right]
  exact Nat.mod_eq_of_lt (by omega)

/-- C7: `restore_to` fails, without modifying any state, whenever the donor
contract's `last_write` equals the current block number. -/
theorem restore_to_donor_written_this_block_fails (cfg : HashCfg)
    (st : ChainState) (origin dest : AccountId) (code_hash : Bytes)
    (rent_allowance : Balance) (delta : List StorageKey)
    (a : RawAliveContractInfo)
    (h1 : st.contractInfoOf origin = some (ContractInfo.Alive a))
    (h2 : a.last_write = some st.blockNumber) :
    restore_to cfg st origin dest code_hash rent_allowance delta =
      (st, .error .OriginWrittenThisBlock) := by
  simp only [restore_to, h1, Option.some_bind, ContractInfo.get_alive, if_pos h2]

/-- Witness for C7 at a concrete input: donor account 2 of `stRestore` has
`last_write = some 5`, the current block. -/
theorem restore_to_donor_written_this_block_fails_witness :
    restore_to cfg0 stRestore 2 1 [7] 0 [] =
      (stRestore, .error .OriginWrittenThisBlock) :=
  restore_to_donor_written_this_block_fails cfg0 stRestore 2 1 [7] 0 [] aliveB
    rfl rfl

/-- C5: when the recomputed tombstone does not match the one stored under
`dest`, `restore_to` puts every taken key/value pair back, changes no
`ContractInfo` entry, and fails with the tombstone-mismatch error: the final
state is exactly the initial state. -/
theorem restore_to_mismatch_is_noop (cfg : HashCfg) (st : ChainState)
    (origin dest : AccountId) (code_hash : Bytes) (rent_allowance : Balance)
    (delta : List StorageKey) (a : RawAliveContractInfo) (th : Bytes)
    (h1 : st.contractInfoOf origin = some (ContractInfo.Alive a))
    (h2 : ¬ a.last_write = some st.blockNumber)
    (h3 : st.contractInfoOf dest = some (ContractInfo.Tombstone th))
    (h4 : tombstone_new cfg
        (cfg.childRoot ((takeDelta cfg a.trie_id st.childStorage delta).1 a.trie_id))
        code_hash ≠ th) :
    restore_to cfg st origin dest code_hash rent_allowance delta =
      (st, .error .TombstoneMismatch) := by
  simp only [restore_to, h1, h3, Option.some_bind, ContractInfo.get_alive,
    ContractInfo.get_tombstone, if_neg h2, if_pos h4]
  rw [takeDelta_putBack_roundtrip]

/-- Witness for C5 at a concrete input: restoring with declared code hash
`[8]` against the stored tombstone `[7]` of `stRestore` leaves the state
untouched and fails. -/
theorem restore_to_mismatch_is_noop_witness :
    restore_to cfg0 stRestore 0 1 [8] 0 [[2]] =
      (stRestore, .error .TombstoneMismatch) :=
  restore_to_mismatch_is_noop cfg0 stRestore 0 1 [8] 0 [[2]] aliveA [7]
    rfl (by decide) rfl (by decide)

/-- C6: when the recomputed tombstone matches the one stored under `dest`,
the donor's entry is removed, `dest` becomes alive with the donor's trie id,
the donor's storage size minus the octets of the removed delta values, the
declared code hash, the supplied rent allowance, `deduct_block` the current
block, `last_write` carried from the donor when the delta is empty (the
current block otherwise), and the donor's whole free balance moves to `dest`. -/
theorem restore_to_match_moves_contract (cfg : HashCfg) (st : ChainState)
    (origin dest : AccountId) (code_hash : Bytes) (rent_allowance : Balance)
    (delta : List StorageKey) (a : RawAliveContractInfo) (th : Bytes)
    (h1 : st.contractInfoOf origin = some (ContractInfo.Alive a))
    (h2 : ¬ a.last_write = some st.blockNumber)
    (h3 : st.contractInfoOf dest = some (ContractInfo.Tombstone th))
    (h4 : tombstone_new cfg
        (cfg.childRoot ((takeDelta cfg a.trie_id st.childStorage delta).1 a.trie_id))
        code_hash = th)
    (h5 : (((takeDelta cfg a.trie_id st.childStorage delta).2.map
        fun kv => kv.2.length).sum) ≤ a.storage_size)
    (h6 : a.storage_size < 2 ^ 32) :
    (restore_to cfg st origin dest code_hash rent_allowance delta).2 = .ok () ∧
    (restore_to cfg st origin dest code_hash rent_allowance delta).1.contractInfoOf
        origin = none ∧
    (restore_to cfg st origin dest code_hash rent_allowance delta).1.contractInfoOf
        dest = some (ContractInfo.Alive {
          trie_id := a.trie_id,
          storage_size := a.storage_size - (((takeDelta cfg a.trie_id
            st.childStorage delta).2.map fun kv => kv.2.length).sum),
          code_hash := code_hash,
          rent_allowance := rent_allowance,
          deduct_block := st.blockNumber,
          last_write := if delta.isEmpty then a.last_write
            else some st.blockNumber }) ∧
    (restore_to cfg st origin dest code_hash rent_allowance delta).1.freeBalance
        origin = 0 ∧
    (restore_to cfg st origin dest code_hash rent_allowance delta).1.freeBalance
        dest = st.freeBalance dest + st.freeBalance origin := by
  have hne : origin ≠ dest := by
    intro he
    rw [he, h3] at h1
    simp at h1
  have h4n : ¬ (tombstone_new cfg
      (cfg.childRoot ((takeDelta cfg a.trie_id st.childStorage delta).1 a.trie_id))
      code_hash ≠ th) := fun hc => hc h4
  simp only [restore_to, h1, h3, Option.some_bind, ContractInfo.get_alive,
    ContractInfo.get_tombstone, if_neg h2, if_neg h4n]
  refine ⟨by trivial, ?_, ?_, ?_, ?_⟩
  · simp [hne]
  · simp [u32Sub_eq_sub _ _ h5 h6]
  · simp [hne]
  · simp [Ne.symm hne]

/-- Witness for C6 at a concrete input: donor account 0 of `stRestore`
restores into the tombstone of account 1, removing the one delta key. -/
theorem restore_to_match_moves_contract_witness :
    (restore_to cfg0 stRestore 0 1 [7] 4 [[2]]).2 = .ok () ∧
    (restore_to cfg0 stRestore 0 1 [7] 4 [[2]]).1.contractInfoOf 0 = none ∧
    (restore_to cfg0 stRestore 0 1 [7] 4 [[2]]).1.contractInfoOf 1 =
      some (ContractInfo.Alive {
        trie_id := [1],
        storage_size := 10 - (((takeDelta cfg0 aliveA.trie_id
          stRestore.childStorage [[2]]).2.map fun kv => kv.2.length).sum),
        code_hash := [7],
        rent_allowance := 4,
        deduct_block := 5,
        last_write := if ([[2]] : List StorageKey).isEmpty then aliveA.last_write
          else some 5 }) ∧
    (restore_to cfg0 stRestore 0 1 [7] 4 [[2]]).1.freeBalance 0 = 0 ∧
    (restore_to cfg0 stRestore 0 1 [7] 4 [[2]]).1.freeBalance 1 =
      stRestore.freeBalance 1 + stRestore.freeBalance 0 :=
  restore_to_match_moves_contract cfg0 stRestore 0 1 [7] 4 [[2]] aliveA [7]
    rfl (by decide) rfl (by decide) (by decide) (by decide)

/-- C1 (divergence from the claim): with `gas_weight_limit = 10` and a
weight-to-fee conversion yielding `fee = 5 < gas_weight_limit`, the stored gas
price is `0`, not the claimed floor of `1`.  `checked_div` falls back to the
default only on a zero divisor, never on a zero quotient, so the flooring the
claim (and `execute_wasm`'s assertion that the taken gas price is nonzero)
relies on does not happen. -/
theorem perform_pre_dispatch_gas_price_zero :
    perform_pre_dispatch_gas_price (fun _ => 5) 10 = 0 ∧
      ¬ 1 ≤ perform_pre_dispatch_gas_price (fun _ => 5) 10 := by decide

/-- C2: the deferred actions accumulated in the root context are replayed by
`execute_wasm` in the order they were appended exactly when the top-level
result is a successful output; on a failed or reverted top-level call nothing
is replayed. -/
theorem execute_wasm_deferred_replay (result : ExecResult)
    (produced : List DeferredAction) (changeSet : ChangeSet) :
    (execResultIsSuccess result = true →
      (execute_wasm result produced changeSet).replayed = produced) ∧
    (execResultIsSuccess result = false →
      (execute_wasm result produced changeSet).replayed = []) := by
  constructor <;> intro h <;> simp [execute_wasm, rootDeferredLog, h]

/-- Witness for C2 at concrete inputs: a successful result replays the queued
dispatch, a reverted result replays nothing. -/
theorem execute_wasm_deferred_replay_witness :
    (execute_wasm (.ok { status := 0, data := [] })
        [DeferredAction.DispatchRuntimeCall 3 0] { id := 0 }).replayed =
      [DeferredAction.DispatchRuntimeCall 3 0] ∧
    (execute_wasm (.ok { status := 1, data := [] })
        [DeferredAction.DispatchRuntimeCall 3 0] { id := 0 }).replayed = [] :=
  ⟨(execute_wasm_deferred_replay (.ok { status := 0, data := [] })
      [DeferredAction.DispatchRuntimeCall 3 0] { id := 0 }).1 rfl,
   (execute_wasm_deferred_replay (.ok { status := 1, data := [] })
      [DeferredAction.DispatchRuntimeCall 3 0] { id := 0 }).2 rfl⟩

/-- C3: `execute_wasm` commits to the backing `DirectAccountDb` at most once,
and only when the root result is a successful (non-reverted) output; on
failure or revert of the root frame nothing is committed. -/
theorem execute_wasm_commit_once_on_success (result : ExecResult)
    (produced : List DeferredAction) (changeSet : ChangeSet) :
    (execute_wasm result produced changeSet).commits.length ≤ 1 ∧
    ((execute_wasm result produced changeSet).commits ≠ [] →
      execResultIsSuccess result = true) ∧
    (execResultIsSuccess result = false →
      (execute_wasm result produced changeSet).commits = []) := by
  unfold execute_wasm
  cases h : execResultIsSuccess result <;> simp [h]

/-- Witness for C3 at a concrete input: a trapped root frame commits
nothing. -/
theorem execute_wasm_commit_once_on_success_witness :
    (execute_wasm (.error { reason := "trap", buffer := [] }) [] { id := 0 }).commits
      = [] ∧
    (execute_wasm (.ok { status := 0, data := [] }) [] { id := 0 }).commits.length
      ≤ 1 :=
  ⟨(execute_wasm_commit_once_on_success (.error { reason := "trap", buffer := [] })
      [] { id := 0 }).2.2 rfl,
   (execute_wasm_commit_once_on_success (.ok { status := 0, data := [] })
      [] { id := 0 }).1⟩

/-- C4: `update_schedule` succeeds exactly when the new schedule's version is
strictly greater than the stored one; on an equal or lower version it fails
leaving the schedule and the event log unchanged; on success it stores the
schedule and appends exactly one `ScheduleUpdated` event with the new
version. -/
theorem update_schedule_spec (st : ScheduleState) (s : Schedule) :
    ((update_schedule .Root st s).2 = .ok () ↔
      st.currentSchedule.version < s.version) ∧
    (s.version ≤ st.currentSchedule.version →
      update_schedule .Root st s = (st, .error .StaleOrEqualVersion)) ∧
    (st.currentSchedule.version < s.version →
      update_schedule .Root st s =
        ({ currentSchedule := s,
           events := st.events ++ [ContractEvent.ScheduleUpdated s.version] },
         .ok ())) := by
  unfold update_schedule
  by_cases h : st.currentSchedule.version ≥ s.version <;> simp [h]
  all_goals omega

/-- Witness for C4 at concrete inputs: replaying the default version-0
schedule is rejected and nothing changes; a version-1 schedule is accepted and
deposits the single `ScheduleUpdated(1)` event. -/
theorem update_schedule_spec_witness :
    update_schedule .Root { currentSchedule := Schedule.default, events := [] }
        Schedule.default =
      ({ currentSchedule := Schedule.default, events := [] },
       .error .StaleOrEqualVersion) ∧
    update_schedule .Root { currentSchedule := Schedule.default, events := [] }
        { Schedule.default with version := 1 } =
      ({ currentSchedule := { Schedule.default with version := 1 },
         events := [ContractEvent.ScheduleUpdated 1] }, .ok ()) :=
  ⟨(update_schedule_spec { currentSchedule := Schedule.default, events := [] }
      Schedule.default).2.1 (by decide),
   (update_schedule_spec { currentSchedule := Schedule.default, events := [] }
      { Schedule.default with version := 1 }).2.2 (by decide)⟩

/-- C8: the derived contract address equals the hash of the code hash, the
hash of the input data and the origin, concatenated in that order; it is a
pure function of exactly those three inputs (and the host hash). -/
theorem contract_address_for_formula (cfg : HashCfg) (code_hash : Bytes)
    (data : Bytes) (origin : Bytes) :
    contract_address_for cfg code_hash data origin =
      cfg.hashFn (code_hash ++ cfg.hashFn data ++ origin) := by
  simp [contract_address_for]

/-- C9: `get_storage` returns the contract-doesnt-exist error for an address
without a contract-info entry, the tombstone error for a tombstoned address,
and for an alive contract the committed child-trie value under the
blake2-hashed key; it is a pure query and modifies nothing. -/
theorem get_storage_spec (cfg : HashCfg) (st : ChainState)
    (address : AccountId) (key : StorageKey) :
    (st.contractInfoOf address = none →
      get_storage cfg st address key = .error .ContractDoesntExist) ∧
    (∀ h, st.contractInfoOf address = some (ContractInfo.Tombstone h) →
      get_storage cfg st address key = .error .IsTombstone) ∧
    (∀ a, st.contractInfoOf address = some (ContractInfo.Alive a) →
      get_storage cfg st address key =
        .ok (st.childStorage a.trie_id (cfg.blake2 key))) := by
  refine ⟨fun h => ?_, fun h hh => ?_, fun a ha => ?_⟩ <;>
    simp [get_storage, direct_account_db_get_storage, ContractInfo.get_alive, *]

/-- Witness for C9 at concrete inputs: the three cases evaluated on
`stRestore`. -/
theorem get_storage_spec_witness :
    get_storage cfg0 stRestore 7 [2] = .error .ContractDoesntExist ∧
    get_storage cfg0 stRestore 1 [2] = .error .IsTombstone ∧
    get_storage cfg0 stRestore 0 [2] = .ok (some [5, 5]) :=
  ⟨(get_storage_spec cfg0 stRestore 7 [2]).1 rfl,
   (get_storage_spec cfg0 stRestore 1 [2]).2.1 [7] rfl,
   (get_storage_spec cfg0 stRestore 0 [2]).2.2 aliveA rfl⟩

/-- C10: `on_free_balance_zero` removes the account's contract-info entry
unconditionally — tombstones included, losing their hash — and kills the
account's child-trie storage exactly in the case where the removed entry was
alive (other tries are untouched, and a tombstoned or absent entry leaves all
child storage unchanged). -/
theorem on_free_balance_zero_spec (st : ChainState) (who : AccountId) :
    ((on_free_balance_zero st who).contractInfoOf who = none) ∧
    (∀ x, x ≠ who →
      (on_free_balance_zero st who).contractInfoOf x = st.contractInfoOf x) ∧
    (∀ h, st.contractInfoOf who = some (ContractInfo.Tombstone h) →
      (on_free_balance_zero st who).childStorage = st.childStorage) ∧
    (st.contractInfoOf who = none →
      (on_free_balance_zero st who).childStorage = st.childStorage) ∧
    (∀ info, st.contractInfoOf who = some (ContractInfo.Alive info) →
      (∀ k, (on_free_balance_zero st who).childStorage info.trie_id k = none) ∧
      (∀ t k, t ≠ info.trie_id →
        (on_free_balance_zero st who).childStorage t k = st.childStorage t k)) := by
  refine ⟨?_, fun x hx => ?_, fun h hh => ?_, fun h => ?_, fun info hi => ?_⟩
  · cases h : st.contractInfoOf who with
    | none => simp [on_free_balance_zero, h]
    | some ci => cases ci <;> simp [on_free_balance_zero, h]
  · cases h : st.contractInfoOf who with
    | none => simp [on_free_balance_zero, h, hx]
    | some ci => cases ci <;> simp [on_free_balance_zero, h, hx]
  · simp [on_free_balance_zero, hh]
  · simp [on_free_balance_zero, h]
  · refine ⟨fun k => ?_, fun t k ht => ?_⟩ <;>
      simp [on_free_balance_zero, hi, childKillStorage, *]

/-- Witness for C10 at concrete inputs: removing tombstoned account 1 of
`stRestore` keeps all child storage; removing alive account 0 kills its
trie. -/
theorem on_free_balance_zero_spec_witness :
    (on_free_balance_zero stRestore 1).contractInfoOf 1 = none ∧
    (on_free_balance_zero stRestore 1).childStorage = stRestore.childStorage ∧
    (on_free_balance_zero stRestore 0).childStorage [1] [2] = none :=
  ⟨(on_free_balance_zero_spec stRestore 1).1,
   (on_free_balance_zero_spec stRestore 1).2.2.1 [7] rfl,
   ((on_free_balance_zero_spec stRestore 0).2.2.2.2 aliveA rfl).1 [2]⟩

end SubstrateContracts
